import Mathlib

/-!
Shallow embedding of the proxy-service request pipeline
(`internal/proxyserver`, see `ServeHTTP` and its helpers) together with
theorems checking the specification's claims about it.

Go strings are modelled as Lean `String` (sequences of characters); all
concrete inputs appearing below are ASCII, where the byte-level Go
operations and the character-level model coincide.
-/

namespace ProxyService

/-- Model of Go `strings.Contains s sub`: `sub` occurs as a contiguous
substring of `s`. -/
def stringsContains (s sub : String) : Bool :=
  decide (sub.toList <:+: s.toList)

/-- Model of Go `strings.HasSuffix s suf`. -/
def stringsHasSuffix (s suf : String) : Bool :=
  decide (suf.toList <:+ s.toList)

/-- Model of Go `strings.HasPrefix s p`. -/
def stringsHasPrefix (s p : String) : Bool :=
  decide (p.toList <+: s.toList)

/-- Model of Go `strings.ToLower` (faithful on ASCII, which covers every
string manipulated by the filter claims). -/
def stringsToLower (s : String) : String :=
  String.mk (s.toList.map Char.toLower)

/-- Model of the Go byte-slice expression `s[1:]` (all uses in the source
slice off a one-byte ASCII character). -/
def stringDropFirst (s : String) : String :=
  String.mk (s.toList.drop 1)

/-- Model of `net/http.Header`: a map from (canonical) header keys to the
list of values, represented as an association list with distinct keys. -/
abbrev Header := List (String × List String)

/-- Model of `http.Header.Get k` (textproto `MIMEHeader.Get`): the first
value stored under the key, or `""` when the key is absent or has no
values.  Keys of a server-parsed header are already in canonical form, as
are the keys the source looks up. -/
def headerGet (h : Header) (k : String) : String :=
  match h.lookup k with
  | some (v :: _) => v
  | some [] => ""
  | none => ""

/-- headerCopy defines a subset of common, non-auth, related headers
(`headerCopy` struct in the source).  Field names follow the source; the
Go zero value is the structure with every field `[]` (nil slice). -/
structure headerCopy where
  Host : List String
  Accept : List String
  UserAgent : List String
  Connection : List String
  ContentType : List String
  ContentLength : List String
  AcceptEncoding : List String
deriving DecidableEq, Repr

/-- Zero value of `headerCopy` (Go `headerCopy{}`). -/
def headerCopy.zero : headerCopy :=
  ⟨[], [], [], [], [], [], []⟩

/-- One iteration of the `switch k` inside the source's `copyHeader` loop:
the entry `(k, vv)` updates the field whose case label equals `k`, and is
ignored otherwise. -/
def copyHeaderStep (hc : headerCopy) (kv : String × List String) : headerCopy :=
  if kv.1 = "Host" then { hc with Host := kv.2 }
  else if kv.1 = "Accept" then { hc with Accept := kv.2 }
  else if kv.1 = "User-Agent" then { hc with UserAgent := kv.2 }
  else if kv.1 = "Connection" then { hc with Connection := kv.2 }
  else if kv.1 = "Content-Type" then { hc with ContentType := kv.2 }
  else if kv.1 = "Content-Length" then { hc with ContentLength := kv.2 }
  else if kv.1 = "AcceptEncoding" then { hc with AcceptEncoding := kv.2 }
  else hc

/-- copyHeader creates and returns a headerCopy (source `copyHeader`):
it ranges over the header map and keeps the allow-listed entries.  Note
that the last case label in the source is the literal `"AcceptEncoding"`,
not the canonical wire form `Accept-Encoding`. -/
def copyHeader (h : Header) : headerCopy :=
  h.foldl copyHeaderStep headerCopy.zero

/-- Configuration and state of the proxy server (`ProxyServer` struct).
The `logger` and `debug` fields only affect logging and are omitted.  The
source stores the target URL as a string and re-parses it inside
`prepareRequest`; the parse always succeeds for a configuration that
passed `Config.validate`, so the model carries the parsed form `target`
alongside the raw string `targetURL` that is stored into snapshots. -/
structure ProxyServer where
  targetURL : String
  requestDelay : Nat
  bodyMethodsOnly : Bool
  rejectWith : String
  rejectExact : Bool
  rejectInsensitive : Bool
deriving DecidableEq, Repr

/-- validateRequestBody validates whether the body includes an unwanted
word or phrase (source `validateRequestBody`).  Returns `some errorMessage`
when the body is rejected and `none` when it passes, mirroring the Go
`error` result. -/
def validateRequestBody (s : ProxyServer) (b0 : String) : Option String :=
  let b := if s.rejectInsensitive then stringsToLower b0 else b0
  let v := if s.rejectInsensitive then stringsToLower s.rejectWith else s.rejectWith
  let invalid : List String :=
    if s.rejectExact then
      [" " ++ v ++ " ", "\"" ++ v ++ "\"", " " ++ v ++ "\"", "\"" ++ v ++ " "]
    else
      [v]
  if invalid.any (fun c => stringsContains b c) then
    some ("rejected because `" ++ v ++ "` found within request body")
  else
    none

/-- Model of a parsed `net/url.URL`, restricted to the fields the proxy
reads or writes.  `rawPath` models `URL.RawPath`: `url.Parse` leaves it
`""` when the escaped form of `path` is the input itself, and otherwise
stores the original (valid) escaping of `path`. -/
structure URL where
  scheme : String
  host : String
  path : String
  rawPath : String
  rawQuery : String
deriving DecidableEq, Repr

/-- Decides whether Go `net/url` escapes the character in `encodePath`
mode (`shouldEscape(c, encodePath)`): alphanumerics, the RFC 3986 mark
characters and most reserved path characters stay, `?` and everything
else is escaped.  Faithful for ASCII; a non-ASCII character stands for
its UTF-8 bytes, each of which Go escapes. -/
def shouldEscapePathChar (c : Char) : Bool :=
  if ('a' ≤ c ∧ c ≤ 'z') ∨ ('A' ≤ c ∧ c ≤ 'Z') ∨ ('0' ≤ c ∧ c ≤ '9') then false
  else if c = '-' ∨ c = '_' ∨ c = '.' ∨ c = '~' then false
  else if c = '$' ∨ c = '&' ∨ c = '+' ∨ c = ',' ∨ c = '/' ∨ c = ':' ∨ c = ';' ∨ c = '=' ∨ c = '?' ∨ c = '@' then decide (c = '?')
  else true

/-- Upper-case hexadecimal digit, as used by `net/url.escape`. -/
def hexDigitUpper (n : Nat) : Char :=
  "0123456789ABCDEF".toList.getD n '0'

/-- Percent-escaping of one character (`%XX`). -/
def percentEscapeChar (c : Char) : List Char :=
  ['%', hexDigitUpper (c.toNat / 16 % 16), hexDigitUpper (c.toNat % 16)]

/-- Model of `net/url.escape(s, encodePath)`, the canonical escaped form
of a path. -/
def escapePath (s : String) : String :=
  String.mk (List.flatten (s.toList.map
    (fun c => if shouldEscapePathChar c then percentEscapeChar c else [c])))

/-- Model of `URL.EscapedPath`: it returns `RawPath` when that is a valid
escaping of `Path` — which the `url.Parse` invariant guarantees whenever
`RawPath` is non-empty — and otherwise the canonical escape of `Path`. -/
def URL.escapedPath (u : URL) : String :=
  if u.rawPath = "" then escapePath u.path else u.rawPath

/-- Model of an inbound `*http.Request`, restricted to the fields the
proxy reads or writes.  `body = some cb` models a body whose bytes read
as `cb` (a `nil`/`NoBody` body reads as `some ""`); `body = none` models
an I/O error while reading, the condition under which the source's
`copyBody` / `io.ReadAll` calls fail. -/
structure Request where
  method : String
  url : URL
  host : String
  requestURI : String
  header : Header
  body : Option String
deriving DecidableEq, Repr

/-- RequestCopy defines a request representation that is used to compare
requests (source `RequestCopy`).  The `Body` byte slice is modelled as
the string of its bytes.  Structural (`cmp.Equal`) equality is the
derived decidable equality. -/
structure RequestCopy where
  Method : String
  TargetURL : String
  TargetURI : String
  Header : headerCopy
  Body : String
deriving DecidableEq, Repr

/-- Zero value `RequestCopy{}`, the initial `priorRequest` supplied by
`cmd.Run`. -/
def RequestCopy.zero : RequestCopy :=
  ⟨"", "", "", headerCopy.zero, ""⟩

/-- The inner closure of the source's `joinURLPath` (Go stdlib
`singleJoiningSlash`): join two path strings so that, judged on these two
strings, exactly one slash separates them. -/
def singleJoiningSlash (a b : String) : String :=
  let aslash := stringsHasSuffix a "/"
  let bslash := stringsHasPrefix b "/"
  if aslash ∧ bslash then a ++ stringDropFirst b
  else if ¬aslash ∧ ¬bslash then a ++ "/" ++ b
  else a ++ b

/-- The anonymous path-joining function inside `prepareRequest` (Go stdlib
`joinURLPath`): when neither URL carries a `RawPath` the plain paths are
joined by `singleJoiningSlash` and the joined `RawPath` is empty;
otherwise both the plain and the escaped paths are concatenated, with the
one-slash adjustment decided from the escaped paths. -/
def joinURLPath (a b : URL) : String × String :=
  if a.rawPath = "" ∧ b.rawPath = "" then
    (singleJoiningSlash a.path b.path, "")
  else
    let apath := a.escapedPath
    let bpath := b.escapedPath
    let aslash := stringsHasSuffix apath "/"
    let bslash := stringsHasPrefix bpath "/"
    if aslash ∧ bslash then
      (a.path ++ stringDropFirst b.path, apath ++ stringDropFirst bpath)
    else if ¬aslash ∧ ¬bslash then
      (a.path ++ "/" ++ b.path, apath ++ "/" ++ bpath)
    else
      (a.path ++ b.path, apath ++ bpath)

/-- Hop-by-hop and proxy-control header names removed by the source's
`sanitizeHeader`. -/
def sanitizedHeaderNames : List String :=
  ["Te", "Trailer", "Upgrade", "Keep-Alive", "Connection", "Accept-Encoding",
   "Transfer-Encoding", "Proxy-Connection", "Proxy-Authenticate", "Proxy-Authorization"]

/-- sanitizeHeader removes hop-by-hop headers and those that could get in
the way of the proxied request (source `sanitizeHeader`). -/
def sanitizeHeader (h : Header) : Header :=
  h.filter (fun kv => decide (¬ kv.1 ∈ sanitizedHeaderNames))

/-- prepareRequest modifies the client's request and routes URLs to the
scheme, host, and base path of the parsed target URL (source
`prepareRequest`; the `url.Parse` of the stored target string is modelled
by the parsed `target` argument, the parse having been validated at
startup). -/
def prepareRequest (target : URL) (r : Request) : Request :=
  let pr := joinURLPath target r.url
  let q :=
    if target.rawQuery = "" ∨ r.url.rawQuery = "" then
      target.rawQuery ++ r.url.rawQuery
    else
      target.rawQuery ++ "&" ++ r.url.rawQuery
  { method := r.method
    url := { scheme := target.scheme, host := target.host,
             path := pr.1, rawPath := pr.2, rawQuery := q }
    host := ""
    requestURI := ""
    header := sanitizeHeader r.header
    body := r.body }

/-- Outcome of one `ServeHTTP` invocation, up to the dispatch of the
prepared request to the backend (the network call itself, and the `502`
it can produce, are outside the model).  `error code msg` is a
`writeError` termination; `forward delaySeconds req` says the handler
slept `delaySeconds` seconds (0 when no consecutive duplicate was
detected) and dispatched the prepared request `req`. -/
inductive Outcome where
  | error (code : Nat) (msg : String)
  | forward (delaySeconds : Nat) (req : Request)
deriving DecidableEq, Repr

/-- ServeHTTP is the main handler used by the server (source `ServeHTTP`),
as a function of the server configuration, the stored `priorRequest`
snapshot and the inbound request; it returns the outcome together with
the snapshot stored after the call (the source mutates `s.priorRequest`).
The parsed form of `s.targetURL` is passed as `target`. -/
def ServeHTTP (s : ProxyServer) (target : URL) (prior : RequestCopy) (r : Request) :
    Outcome × RequestCopy :=
  if s.bodyMethodsOnly ∧ ¬ r.method ∈ ["POST", "PUT", "PATCH"] then
    (.error 405 ("`" ++ r.method ++ "` method not allowed, this proxy server only supports `POST, PUT, PATCH` requests"), prior)
  else if ¬ headerGet r.header "Content-Type" = "application/json" then
    (.error 415 "Content-Type header must be `application/json`", prior)
  else
    match r.body with
    | none => (.error 400 "invalid request body", prior)
    | some cb =>
      match (if s.rejectWith ≠ "" then validateRequestBody s cb else none) with
      | some e => (.error 401 e, prior)
      | none =>
        let ch := copyHeader r.header
        let cr : RequestCopy :=
          { Method := r.method, TargetURL := s.targetURL, TargetURI := r.requestURI,
            Header := ch, Body := cb }
        let delay := if prior = cr then s.requestDelay else 0
        (.forward delay (prepareRequest target r), cr)

/-! JSON well-formedness.  The specification asserts that every error body
the responder writes is a parseable JSON object; the checker below is a
plain recursive-descent validator for RFC 8259 JSON text, used as the
meaning of "parseable". -/

/-- Left brace character (written via its code so that no brace appears
inside a literal). -/
def lbraceChar : Char := Char.ofNat 123

/-- Right brace character. -/
def rbraceChar : Char := Char.ofNat 125

/-- Drop leading JSON whitespace. -/
def jsonSkipWs : List Char → List Char
  | c :: rest =>
    if c = ' ' ∨ c = '\t' ∨ c = '\n' ∨ c = '\r' then jsonSkipWs rest else c :: rest
  | [] => []

/-- Hexadecimal digit test for `\uXXXX` escapes. -/
def jsonHexDigit (c : Char) : Bool :=
  c.isDigit ∨ ('a' ≤ c ∧ c ≤ 'f') ∨ ('A' ≤ c ∧ c ≤ 'F')

/-- Consume the rest of a JSON string after its opening quote; return the
input following the closing quote. -/
def jsonParseStringRest : Nat → List Char → Option (List Char)
  | 0, _ => none
  | _ + 1, [] => none
  | fuel + 1, c :: rest =>
    if c = '"' then some rest
    else if c = '\\' then
      match rest with
      | [] => none
      | e :: rest2 =>
        if e = '"' ∨ e = '\\' ∨ e = '/' ∨ e = 'b' ∨ e = 'f' ∨ e = 'n' ∨ e = 'r' ∨ e = 't' then
          jsonParseStringRest fuel rest2
        else if e = 'u' then
          match rest2 with
          | h1 :: h2 :: h3 :: h4 :: rest3 =>
            if jsonHexDigit h1 ∧ jsonHexDigit h2 ∧ jsonHexDigit h3 ∧ jsonHexDigit h4 then
              jsonParseStringRest fuel rest3
            else none
          | _ => none
        else none
    else if c.toNat < 32 then none
    else jsonParseStringRest fuel rest

/-- Consume the exponent part of a JSON number, if present. -/
def jsonParseExp (cs : List Char) : Option (List Char) :=
  match cs with
  | e :: rest =>
    if e = 'e' ∨ e = 'E' then
      let rest1 := if rest.head? = some '+' ∨ rest.head? = some '-' then rest.drop 1 else rest
      match rest1 with
      | d :: _ => if d.isDigit then some (rest1.dropWhile Char.isDigit) else none
      | [] => none
    else some (e :: rest)
  | [] => some []

/-- Consume the fraction and exponent parts of a JSON number, if present. -/
def jsonParseFrac (cs : List Char) : Option (List Char) :=
  match cs with
  | '.' :: rest =>
    match rest with
    | d :: _ => if d.isDigit then jsonParseExp (rest.dropWhile Char.isDigit) else none
    | [] => none
  | _ => jsonParseExp cs

/-- Consume a JSON number starting at its first character. -/
def jsonParseNumberRest (cs : List Char) : Option (List Char) :=
  let cs1 := if cs.head? = some '-' then cs.drop 1 else cs
  match cs1 with
  | d :: rest =>
    if d = '0' then jsonParseFrac rest
    else if d.isDigit then jsonParseFrac (rest.dropWhile Char.isDigit)
    else none
  | [] => none

/-- Consume a literal word (`true`, `false`, `null` tails). -/
def jsonExpectLit (lit : List Char) (cs : List Char) : Option (List Char) :=
  if cs.take lit.length = lit then some (cs.drop lit.length) else none

mutual

/-- Consume one JSON value. -/
def jsonParseValue : Nat → List Char → Option (List Char)
  | 0, _ => none
  | fuel + 1, cs =>
    match jsonSkipWs cs with
    | [] => none
    | c :: rest =>
      if c = '"' then jsonParseStringRest (fuel + 1) rest
      else if c = lbraceChar then jsonParseMembers fuel rest true
      else if c = '[' then jsonParseElements fuel rest true
      else if c = 't' then jsonExpectLit ['r', 'u', 'e'] rest
      else if c = 'f' then jsonExpectLit ['a', 'l', 's', 'e'] rest
      else if c = 'n' then jsonExpectLit ['u', 'l', 'l'] rest
      else if c = '-' ∨ c.isDigit then jsonParseNumberRest (c :: rest)
      else none

/-- Consume the members of a JSON object after its opening brace (or, when
`first = false`, after a parsed member), up to and including the closing
brace. -/
def jsonParseMembers : Nat → List Char → Bool → Option (List Char)
  | 0, _, _ => none
  | fuel + 1, cs, first =>
    match jsonSkipWs cs with
    | [] => none
    | c :: rest =>
      if c = rbraceChar then some rest
      else
        match (if first then some (c :: rest) else if c = ',' then some rest else none) with
        | none => none
        | some cs1 =>
          match jsonSkipWs cs1 with
          | [] => none
          | q :: rest2 =>
            if q = '"' then
              match jsonParseStringRest (fuel + 1) rest2 with
              | none => none
              | some cs2 =>
                match jsonSkipWs cs2 with
                | [] => none
                | colon :: rest3 =>
                  if colon = ':' then
                    match jsonParseValue fuel rest3 with
                    | none => none
                    | some cs3 => jsonParseMembers fuel cs3 false
                  else none
            else none

/-- Consume the elements of a JSON array after its opening bracket, up to
and including the closing bracket. -/
def jsonParseElements : Nat → List Char → Bool → Option (List Char)
  | 0, _, _ => none
  | fuel + 1, cs, first =>
    match jsonSkipWs cs with
    | [] => none
    | c :: rest =>
      if c = ']' then some rest
      else
        match (if first then some (c :: rest) else if c = ',' then some rest else none) with
        | none => none
        | some cs1 =>
          match jsonParseValue fuel cs1 with
          | none => none
          | some cs2 => jsonParseElements fuel cs2 false

end

/-- A string is parseable JSON when one value consumes it entirely (up to
whitespace). -/
def isValidJson (s : String) : Bool :=
  match jsonParseValue (s.length + 2) s.toList with
  | some rest => decide (jsonSkipWs rest = [])
  | none => false

/-- A string is a parseable JSON object when it is parseable and its
first significant character is an opening brace. -/
def isValidJsonObject (s : String) : Bool :=
  isValidJson s && ((jsonSkipWs s.toList).head? == some lbraceChar)

/-! Model of `writeError` bodies. -/

/-- Lower-case hexadecimal digit, as used by `encoding/json`. -/
def hexDigitLower (n : Nat) : Char :=
  "0123456789abcdef".toList.getD n '0'

/-- Escaping applied by `encoding/json` to one character of a string value
(HTML-escaping encoder, the `json.Marshal` default).  Faithful for ASCII. -/
def jsonMarshalEscapeChar (c : Char) : List Char :=
  if c = '"' then ['\\', '"']
  else if c = '\\' then ['\\', '\\']
  else if c = '\n' then ['\\', 'n']
  else if c = '\r' then ['\\', 'r']
  else if c = '\t' then ['\\', 't']
  else if c = '<' ∨ c = '>' ∨ c = '&' ∨ c.toNat < 32 then
    ['\\', 'u', '0', '0', hexDigitLower (c.toNat / 16 % 16), hexDigitLower (c.toNat % 16)]
  else [c]

/-- Model of the `json.Marshal` encoding of one string value, quotes
included. -/
def jsonMarshalString (s : String) : String :=
  "\"" ++ String.mk (List.flatten (s.toList.map jsonMarshalEscapeChar)) ++ "\""

/-- Body written by `writeError` on the normal path: the `json.Marshal`
encoding of `proxyErrorResponse{Code: strconv.Itoa(code), Msg: msg}`. -/
def writeErrorBody (code : Nat) (msg : String) : String :=
  "\x7b\"code\":" ++ jsonMarshalString (toString code) ++ ",\"msg\":" ++ jsonMarshalString msg ++ "\x7d"

/-- Body written by `writeError` when `json.Marshal` fails, transcribed
from the source string concatenation (note: between the code value and
`"msg"` the source puts the two characters `""`, with no comma). -/
def writeErrorFallbackBody (code : Nat) : String :=
  "\x7b\"code\": \"" ++ toString code ++ "\"\"msg\": \"There was a response that could not be serialized into JSON\"\x7d"

/-- The comma-separated repair of the fallback string, for contrast: what
the fallback was evidently meant to be. -/
def writeErrorFallbackBodyRepaired (code : Nat) : String :=
  "\x7b\"code\": \"" ++ toString code ++ "\", \"msg\": \"There was a response that could not be serialized into JSON\"\x7d"

/-! Model of the duplicate-check critical region, for the concurrency
claim.  The source performs `pr := s.priorRequest` (a read), the
`cmp.Equal(pr, cr)` comparison, and `s.priorRequest = cr` (a write) as
separate unguarded accesses — `ProxyServer` holds no lock and the package
imports no synchronization primitive. -/

/-- The read-compare-write of the snapshot slot executed atomically (as
one critical section): returns the delay decision and the new stored
value. -/
def duplicateCheckCritical (prior cr : RequestCopy) : Bool × RequestCopy :=
  (decide (prior = cr), cr)

/-- Two handlers A (snapshot `c1`) and B (snapshot `c2`) executed under
mutual exclusion, A's critical section first: (A delayed?, B delayed?,
final stored snapshot). -/
def duplicateCheckSerialAB (init c1 c2 : RequestCopy) : Bool × Bool × RequestCopy :=
  let a := duplicateCheckCritical init c1
  let b := duplicateCheckCritical a.2 c2
  (a.1, b.1, b.2)

/-- The same two handlers under mutual exclusion, B's critical section
first. -/
def duplicateCheckSerialBA (init c1 c2 : RequestCopy) : Bool × Bool × RequestCopy :=
  let b := duplicateCheckCritical init c2
  let a := duplicateCheckCritical b.2 c1
  (a.1, b.1, a.2)

/-- The interleaving read-A, read-B, write-A, write-B that the
unsynchronized source admits: both handlers read the initial snapshot,
each compares against the value it read, and B's write lands last. -/
def duplicateCheckRacyRRWW (init c1 c2 : RequestCopy) : Bool × Bool × RequestCopy :=
  (decide (init = c1), decide (init = c2), c2)

/-! Helper lemmas. -/

/-- The option returned by an if-then-else over `some`/`none` is `some`
exactly when the condition holds. -/
theorem isSome_cond {α : Type} (b : Bool) (x : α) :
    (if b then some x else none).isSome = b := by
  cases b <;> rfl

/-- Characterization of the filter as the boolean "some forbidden pattern
occurs", with the pattern list of the source. -/
theorem validateRequestBody_isSome (s : ProxyServer) (b0 : String) :
    (validateRequestBody s b0).isSome =
      (let b := if s.rejectInsensitive then stringsToLower b0 else b0
       let v := if s.rejectInsensitive then stringsToLower s.rejectWith else s.rejectWith
       let invalid : List String :=
         if s.rejectExact then
           [" " ++ v ++ " ", "\"" ++ v ++ "\"", " " ++ v ++ "\"", "\"" ++ v ++ " "]
         else
           [v]
       invalid.any (fun c => stringsContains b c)) := by
  simp only [validateRequestBody]
  exact isSome_cond _ _

/-- Containment of a delimited pattern implies containment of the phrase
it delimits. -/
theorem stringsContains_of_append (b x v y : String)
    (h : stringsContains b (x ++ v ++ y) = true) : stringsContains b v = true := by
  simp only [stringsContains, decide_eq_true_eq] at h ⊢
  have hv : v.toList <:+: (x ++ v ++ y).toList := by
    refine ⟨x.toList, y.toList, ?_⟩
    simp [String.toList, String.data_append]
  exact hv.trans h

/-- Occurrence of one of the four delimited forms of the configured
phrase in a body, both lower-cased when case-insensitive mode is set:
the tokenized-match condition of the specification. -/
def exactPatternsHit (s : ProxyServer) (b0 : String) : Prop :=
  let b := if s.rejectInsensitive then stringsToLower b0 else b0
  let v := if s.rejectInsensitive then stringsToLower s.rejectWith else s.rejectWith
  stringsContains b (" " ++ v ++ " ") = true ∨
  stringsContains b ("\"" ++ v ++ "\"") = true ∨
  stringsContains b (" " ++ v ++ "\"") = true ∨
  stringsContains b ("\"" ++ v ++ " ") = true

/-- Filter configuration of the e2e suite: phrase `bad_message`, exact
mode, case-sensitive. -/
def exactFilterServer : ProxyServer :=
  ⟨"http://t/", 2, true, "bad_message", true, false⟩

/-- The same configuration with case-insensitive matching. -/
def exactFilterServerCI : ProxyServer :=
  ⟨"http://t/", 2, true, "bad_message", true, true⟩

/-- C1: with exact mode enabled and a non-empty phrase, the content filter
rejects a body iff the body contains one of the four delimited forms of
the phrase (space-space, quote-quote, space-quote, quote-space), both
sides lower-cased when case-insensitive mode is set; in particular
`\x7b"body": "bad_message"\x7d` is rejected while `\x7b"body":
"bad_messages"\x7d` (phrase only as a prefix of a longer token) is not,
and `BAD_MESSAGE` is rejected exactly when insensitive mode is on. -/
theorem contentFilter_exact_token_rule :
    (∀ (s : ProxyServer) (b : String), s.rejectExact = true → s.rejectWith ≠ "" →
      ((validateRequestBody s b).isSome = true ↔ exactPatternsHit s b))
    ∧ (validateRequestBody exactFilterServer "\x7b\"body\": \"bad_message\"\x7d").isSome = true
    ∧ (validateRequestBody exactFilterServer "\x7b\"body\": \"bad_messages\"\x7d").isSome = false
    ∧ (validateRequestBody exactFilterServer "\x7b\"body\": \"BAD_MESSAGE\"\x7d").isSome = false
    ∧ (validateRequestBody exactFilterServerCI "\x7b\"body\": \"BAD_MESSAGE\"\x7d").isSome = true := by
  refine ⟨?_, by decide, by decide, by decide, by decide⟩
  intro s b he _
  rw [validateRequestBody_isSome]
  simp only [he, if_true, exactPatternsHit, List.any_cons, List.any_nil,
    Bool.or_eq_true, Bool.or_false]

/-- Witness: the general part of C1 applied to the e2e configuration and
the body `\x7b"body": "bad_message"\x7d`. -/
theorem contentFilter_exact_token_rule_witness :
    exactFilterServer.rejectExact = true ∧ exactFilterServer.rejectWith ≠ "" ∧
    ((validateRequestBody exactFilterServer "\x7b\"body\": \"bad_message\"\x7d").isSome = true ↔
      exactPatternsHit exactFilterServer "\x7b\"body\": \"bad_message\"\x7d") :=
  ⟨rfl, by decide,
    contentFilter_exact_token_rule.1 exactFilterServer "\x7b\"body\": \"bad_message\"\x7d" rfl (by decide)⟩

/-- C10: a body rejected under exact mode is also rejected, with the same
phrase and case-sensitivity setting, under contains mode: each delimited
pattern contains the phrase as a substring. -/
theorem exact_rejection_implies_contains :
    ∀ (s s' : ProxyServer) (b : String),
      s'.rejectWith = s.rejectWith → s'.rejectInsensitive = s.rejectInsensitive →
      s.rejectExact = true → s'.rejectExact = false → s.rejectWith ≠ "" →
      (validateRequestBody s b).isSome = true → (validateRequestBody s' b).isSome = true := by
  intro s s' b hw hi he he' _ h
  rw [validateRequestBody_isSome] at h ⊢
  simp only [he, if_true, List.any_cons, List.any_nil, Bool.or_eq_true, Bool.or_false] at h
  simp only [he', hw, hi, Bool.false_eq_true, if_false, List.any_cons, List.any_nil,
    Bool.or_eq_true, Bool.or_false]
  rcases h with h | h | h | h
  · exact stringsContains_of_append _ " " _ " " h
  · exact stringsContains_of_append _ "\"" _ "\"" h
  · exact stringsContains_of_append _ " " _ "\"" h
  · exact stringsContains_of_append _ "\"" _ " " h

/-- Witness: C10 applied to the e2e exact configuration, its contains-mode
twin, and a rejected body. -/
theorem exact_rejection_implies_contains_witness :
    (validateRequestBody ⟨"http://t/", 2, true, "bad_message", false, false⟩ "\x7b\"body\": \"bad_message\"\x7d").isSome = true :=
  exact_rejection_implies_contains exactFilterServer
    ⟨"http://t/", 2, true, "bad_message", false, false⟩
    "\x7b\"body\": \"bad_message\"\x7d" rfl rfl rfl rfl (by decide) (by decide)

/-- Value list stored under a key, `[]` when absent: the contents of one
`map[string][]string` slot. -/
def hdrValues (h : Header) (k : String) : List String :=
  match h.lookup k with
  | some vv => vv
  | none => []

/-- Value list stored under a key, with an explicit default. -/
def lookupOr (h : Header) (k : String) (d : List String) : List String :=
  match h.lookup k with
  | some vv => vv
  | none => d

/-- A key that appears in no entry looks up to nothing. -/
theorem lookup_eq_none_of_not_mem_keys (h : Header) (k : String)
    (hk : ¬ k ∈ h.map Prod.fst) : h.lookup k = none := by
  induction h with
  | nil => rfl
  | cons kv t ih =>
    simp only [List.map_cons, List.mem_cons, not_or] at hk
    have : (k == kv.1) = false := by
      simp only [beq_eq_false_iff_ne, ne_eq]
      exact hk.1
    cases kv
    simp only [List.lookup, this]
    exact ih hk.2

/-- The `copyHeader` fold, over a map with distinct keys, fills each field
from the unique entry with the matching case label, leaving the
accumulator's field where the label is absent. -/
theorem copyHeader_foldl (h : Header) (hk : (h.map Prod.fst).Nodup) :
    ∀ acc : headerCopy,
      h.foldl copyHeaderStep acc =
        ⟨lookupOr h "Host" acc.Host, lookupOr h "Accept" acc.Accept,
         lookupOr h "User-Agent" acc.UserAgent, lookupOr h "Connection" acc.Connection,
         lookupOr h "Content-Type" acc.ContentType, lookupOr h "Content-Length" acc.ContentLength,
         lookupOr h "AcceptEncoding" acc.AcceptEncoding⟩ := by
  induction h with
  | nil => intro acc; rfl
  | cons kv t ih =>
    intro acc
    simp only [List.map_cons, List.nodup_cons] at hk
    have hnin := hk.1
    have ht := ih hk.2
    rw [List.foldl_cons, ht]
    obtain ⟨k, vv⟩ := kv
    have hlk : t.lookup k = none := lookup_eq_none_of_not_mem_keys t k hnin
    by_cases h1 : k = "Host"
    · subst h1; simp [copyHeaderStep, lookupOr, List.lookup, hlk]
    · by_cases h2 : k = "Accept"
      · subst h2; simp [copyHeaderStep, lookupOr, List.lookup, hlk]
      · by_cases h3 : k = "User-Agent"
        · subst h3; simp [copyHeaderStep, lookupOr, List.lookup, hlk]
        · by_cases h4 : k = "Connection"
          · subst h4; simp [copyHeaderStep, lookupOr, List.lookup, hlk]
          · by_cases h5 : k = "Content-Type"
            · subst h5; simp [copyHeaderStep, lookupOr, List.lookup, hlk]
            · by_cases h6 : k = "Content-Length"
              · subst h6; simp [copyHeaderStep, lookupOr, List.lookup, hlk]
              · by_cases h7 : k = "AcceptEncoding"
                · subst h7; simp [copyHeaderStep, lookupOr, List.lookup, hlk]
                · have b1 : ("Host" == k) = false := beq_eq_false_iff_ne.mpr (Ne.symm h1)
                  have b2 : ("Accept" == k) = false := beq_eq_false_iff_ne.mpr (Ne.symm h2)
                  have b3 : ("User-Agent" == k) = false := beq_eq_false_iff_ne.mpr (Ne.symm h3)
                  have b4 : ("Connection" == k) = false := beq_eq_false_iff_ne.mpr (Ne.symm h4)
                  have b5 : ("Content-Type" == k) = false := beq_eq_false_iff_ne.mpr (Ne.symm h5)
                  have b6 : ("Content-Length" == k) = false := beq_eq_false_iff_ne.mpr (Ne.symm h6)
                  have b7 : ("AcceptEncoding" == k) = false := beq_eq_false_iff_ne.mpr (Ne.symm h7)
                  simp [copyHeaderStep, lookupOr, List.lookup, h1, h2, h3, h4, h5, h6, h7,
                    b1, b2, b3, b4, b5, b6, b7]

/-- The allow-list of header case labels in the source's `copyHeader`
switch; note the last one is the literal `AcceptEncoding`, the name as it
appears in the source rather than the canonical `Accept-Encoding`. -/
def allowListedKeys : List String :=
  ["Host", "Accept", "User-Agent", "Connection", "Content-Type",
   "Content-Length", "AcceptEncoding"]

/-- C4: over a header map (distinct keys), the snapshot header subset is
exactly the seven allow-listed fields, each filled with that key's value
list from the request and empty when the key is absent; headers outside
the allow-list never affect the subset; and two subsets are equal iff all
seven fields agree value-for-value. -/
theorem copyHeader_allowlist :
    (∀ h : Header, (h.map Prod.fst).Nodup →
      copyHeader h =
        ⟨hdrValues h "Host", hdrValues h "Accept", hdrValues h "User-Agent",
         hdrValues h "Connection", hdrValues h "Content-Type",
         hdrValues h "Content-Length", hdrValues h "AcceptEncoding"⟩)
    ∧ (∀ h1 h2 : Header, (h1.map Prod.fst).Nodup → (h2.map Prod.fst).Nodup →
        (∀ k ∈ allowListedKeys, hdrValues h1 k = hdrValues h2 k) →
        copyHeader h1 = copyHeader h2)
    ∧ (∀ a b : headerCopy, a = b ↔
        (a.Host = b.Host ∧ a.Accept = b.Accept ∧ a.UserAgent = b.UserAgent ∧
         a.Connection = b.Connection ∧ a.ContentType = b.ContentType ∧
         a.ContentLength = b.ContentLength ∧ a.AcceptEncoding = b.AcceptEncoding)) := by
  have hchar : ∀ h : Header, (h.map Prod.fst).Nodup →
      copyHeader h =
        ⟨hdrValues h "Host", hdrValues h "Accept", hdrValues h "User-Agent",
         hdrValues h "Connection", hdrValues h "Content-Type",
         hdrValues h "Content-Length", hdrValues h "AcceptEncoding"⟩ := by
    intro h hk
    have := copyHeader_foldl h hk headerCopy.zero
    simpa [copyHeader, headerCopy.zero, lookupOr, hdrValues] using this
  refine ⟨hchar, ?_, ?_⟩
  · intro h1 h2 hk1 hk2 hagree
    rw [hchar h1 hk1, hchar h2 hk2]
    simp only [headerCopy.mk.injEq]
    refine ⟨?_, ?_, ?_, ?_, ?_, ?_, ?_⟩ <;>
      apply hagree <;> simp [allowListedKeys]
  · intro a b
    constructor
    · intro h; subst h; exact ⟨rfl, rfl, rfl, rfl, rfl, rfl, rfl⟩
    · intro hf
      obtain ⟨e1, e2, e3, e4, e5, e6, e7⟩ := hf
      cases a; cases b
      simp_all

/-- Witness: C4's field characterization applied to a concrete header
carrying allow-listed keys and an ignored extra key. -/
theorem copyHeader_allowlist_witness :
    (([("Host", ["example.com"]), ("X-Extra", ["zzz"]),
       ("Content-Type", ["application/json"])] : Header).map Prod.fst).Nodup ∧
    copyHeader [("Host", ["example.com"]), ("X-Extra", ["zzz"]),
       ("Content-Type", ["application/json"])] =
      ⟨["example.com"], [], [], [], ["application/json"], [], []⟩ :=
  ⟨by decide,
    copyHeader_allowlist.1
      [("Host", ["example.com"]), ("X-Extra", ["zzz"]), ("Content-Type", ["application/json"])]
      (by decide)⟩

/-- The snapshot `cr` that `ServeHTTP` builds for a request whose body
read as `cb`. -/
def builtSnapshot (s : ProxyServer) (r : Request) (cb : String) : RequestCopy :=
  ⟨r.method, s.targetURL, r.requestURI, copyHeader r.header, cb⟩

/-- A request that passes admission, content type, body capture and the
content filter reaches the duplicate check: the outcome is a forward,
delayed by the configured duration exactly when the fresh snapshot equals
the stored one, and the stored snapshot becomes the fresh one. -/
theorem ServeHTTP_pass (s : ProxyServer) (target : URL) (st : RequestCopy)
    (r : Request) (cb : String)
    (hadm : s.bodyMethodsOnly = false ∨ r.method ∈ ["POST", "PUT", "PATCH"])
    (hct : headerGet r.header "Content-Type" = "application/json")
    (hb : r.body = some cb)
    (hfl : s.rejectWith = "" ∨ validateRequestBody s cb = none) :
    ServeHTTP s target st r =
      (Outcome.forward (if st = builtSnapshot s r cb then s.requestDelay else 0)
        (prepareRequest target r),
       builtSnapshot s r cb) := by
  have h1 : ¬ (s.bodyMethodsOnly = true ∧ ¬ r.method ∈ ["POST", "PUT", "PATCH"]) := by
    rcases hadm with h | h
    · simp [h]
    · simp [h]
  have h2 : ¬ ¬ headerGet r.header "Content-Type" = "application/json" := not_not_intro hct
  have hflite : (if s.rejectWith ≠ "" then validateRequestBody s cb else none) = none := by
    rcases hfl with h | h
    · simp [h]
    · simp [h]
  unfold ServeHTTP
  rw [if_neg h1, if_neg h2, hb]
  dsimp only
  rw [hflite]
  rfl

/-- C2: for a request that passes admission, content type, body read and
the content filter, forwarding is delayed by the configured duration
exactly when the freshly built snapshot equals the stored previous one,
and the stored snapshot is unconditionally replaced by the fresh one. -/
theorem duplicate_delay_and_replace (s : ProxyServer) (target : URL) (st : RequestCopy)
    (r : Request) (cb : String)
    (hadm : s.bodyMethodsOnly = false ∨ r.method ∈ ["POST", "PUT", "PATCH"])
    (hct : headerGet r.header "Content-Type" = "application/json")
    (hb : r.body = some cb)
    (hfl : s.rejectWith = "" ∨ validateRequestBody s cb = none) :
    (ServeHTTP s target st r).1 =
      Outcome.forward (if st = builtSnapshot s r cb then s.requestDelay else 0)
        (prepareRequest target r)
    ∧ (ServeHTTP s target st r).2 = builtSnapshot s r cb := by
  rw [ServeHTTP_pass s target st r cb hadm hct hb hfl]
  exact ⟨rfl, rfl⟩

/-- Concrete server used by the pipeline witnesses: duplicate-filter
enabled with delay 2, body-methods-only, empty forbidden phrase. -/
def wServer : ProxyServer := ⟨"http://backend/base", 2, true, "", true, false⟩

/-- Parse of `wServer.targetURL`. -/
def wTarget : URL := ⟨"http", "backend", "/base", "", ""⟩

/-- A well-formed JSON POST request. -/
def wPostReq : Request :=
  ⟨"POST", ⟨"", "", "/dir", "", "q=1"⟩, "backend", "/dir?q=1",
   [("Content-Type", ["application/json"]), ("Host", ["backend"])],
   some "\x7b\"a\": 1\x7d"⟩

/-- Witness: C2 applied to a concrete passing request over the zero prior
snapshot. -/
theorem duplicate_delay_and_replace_witness :
    (ServeHTTP wServer wTarget RequestCopy.zero wPostReq).1 =
      Outcome.forward
        (if RequestCopy.zero = builtSnapshot wServer wPostReq "\x7b\"a\": 1\x7d" then 2 else 0)
        (prepareRequest wTarget wPostReq)
    ∧ (ServeHTTP wServer wTarget RequestCopy.zero wPostReq).2 =
        builtSnapshot wServer wPostReq "\x7b\"a\": 1\x7d" :=
  duplicate_delay_and_replace wServer wTarget RequestCopy.zero wPostReq "\x7b\"a\": 1\x7d"
    (Or.inr (by decide)) (by decide) rfl (Or.inl rfl)

/-- C7: with an empty configured phrase the content filter is disabled:
every request that reaches the body stage proceeds past the filter (the
outcome is a forward, never the filter's 401), whatever the body and
whatever the exact/contains and sensitivity flags. -/
theorem emptyPhrase_filter_never_rejects (s : ProxyServer) (target : URL) (st : RequestCopy)
    (r : Request) (cb : String)
    (h0 : s.rejectWith = "")
    (hadm : s.bodyMethodsOnly = false ∨ r.method ∈ ["POST", "PUT", "PATCH"])
    (hct : headerGet r.header "Content-Type" = "application/json")
    (hb : r.body = some cb) :
    (ServeHTTP s target st r).1 =
      Outcome.forward (if st = builtSnapshot s r cb then s.requestDelay else 0)
        (prepareRequest target r)
    ∧ ∀ msg, (ServeHTTP s target st r).1 ≠ Outcome.error 401 msg := by
  have h := ServeHTTP_pass s target st r cb hadm hct hb (Or.inl h0)
  rw [h]
  exact ⟨rfl, fun msg hc => Outcome.noConfusion hc⟩

/-- Witness: C7 applied to a concrete request whose body would match any
non-empty phrase, under a server with the phrase configured empty. -/
theorem emptyPhrase_filter_never_rejects_witness :
    (ServeHTTP wServer wTarget RequestCopy.zero
        ⟨"PUT", ⟨"", "", "/d", "", ""⟩, "backend", "/d",
         [("Content-Type", ["application/json"])], some "\"bad_message\""⟩).1 =
      Outcome.forward
        (if RequestCopy.zero =
            builtSnapshot wServer
              ⟨"PUT", ⟨"", "", "/d", "", ""⟩, "backend", "/d",
               [("Content-Type", ["application/json"])], some "\"bad_message\""⟩
              "\"bad_message\"" then 2 else 0)
        (prepareRequest wTarget
          ⟨"PUT", ⟨"", "", "/d", "", ""⟩, "backend", "/d",
           [("Content-Type", ["application/json"])], some "\"bad_message\""⟩)
    ∧ ∀ msg,
        (ServeHTTP wServer wTarget RequestCopy.zero
            ⟨"PUT", ⟨"", "", "/d", "", ""⟩, "backend", "/d",
             [("Content-Type", ["application/json"])], some "\"bad_message\""⟩).1 ≠
          Outcome.error 401 msg :=
  emptyPhrase_filter_never_rejects wServer wTarget RequestCopy.zero
    ⟨"PUT", ⟨"", "", "/d", "", ""⟩, "backend", "/d",
     [("Content-Type", ["application/json"])], some "\"bad_message\""⟩
    "\"bad_message\"" rfl (Or.inr (by decide)) (by decide) rfl

/-- C8: whenever the handler terminates with an error, the error is one of
the client-side statuses 405, 415, 400, 401 and the stored prior-request
snapshot is left unchanged. -/
theorem error_paths_preserve_snapshot (s : ProxyServer) (target : URL) (st : RequestCopy)
    (r : Request) (code : Nat) (msg : String)
    (h : (ServeHTTP s target st r).1 = Outcome.error code msg) :
    (code = 405 ∨ code = 415 ∨ code = 400 ∨ code = 401) ∧
      (ServeHTTP s target st r).2 = st := by
  unfold ServeHTTP at h ⊢
  by_cases c1 : s.bodyMethodsOnly = true ∧ ¬ r.method ∈ ["POST", "PUT", "PATCH"]
  · rw [if_pos c1] at h ⊢
    simp only [Outcome.error.injEq] at h
    exact ⟨Or.inl h.1.symm, rfl⟩
  · rw [if_neg c1] at h ⊢
    by_cases c2 : ¬ headerGet r.header "Content-Type" = "application/json"
    · rw [if_pos c2] at h ⊢
      simp only [Outcome.error.injEq] at h
      exact ⟨Or.inr (Or.inl h.1.symm), rfl⟩
    · rw [if_neg c2] at h ⊢
      cases hb : r.body with
      | none =>
        rw [hb] at h
        simp only [Outcome.error.injEq] at h
        exact ⟨Or.inr (Or.inr (Or.inl h.1.symm)), rfl⟩
      | some cb =>
        rw [hb] at h
        dsimp only at h ⊢
        cases hf : (if s.rejectWith ≠ "" then validateRequestBody s cb else none) with
        | none =>
          rw [hf] at h
          exact absurd h (fun hc => Outcome.noConfusion hc)
        | some e =>
          rw [hf] at h
          simp only [Outcome.error.injEq] at h
          exact ⟨Or.inr (Or.inr (Or.inr h.1.symm)), rfl⟩

/-- Witness: C8 applied to a request rejected by admission control (405). -/
theorem error_paths_preserve_snapshot_witness :
    (((405 : Nat) = 405 ∨ (405 : Nat) = 415 ∨ (405 : Nat) = 400 ∨ (405 : Nat) = 401) ∧
      (ServeHTTP wServer wTarget RequestCopy.zero
          ⟨"GET", ⟨"", "", "/d", "", ""⟩, "backend", "/d",
           [("Content-Type", ["application/json"])], some ""⟩).2 = RequestCopy.zero) :=
  error_paths_preserve_snapshot wServer wTarget RequestCopy.zero
    ⟨"GET", ⟨"", "", "/d", "", ""⟩, "backend", "/d",
     [("Content-Type", ["application/json"])], some ""⟩
    405 "`GET` method not allowed, this proxy server only supports `POST, PUT, PATCH` requests"
    (by decide)

/-- Server for the C5 counterexample: admission control enabled. -/
def cexServer : ProxyServer := ⟨"http://backend/", 2, true, "", false, false⟩

/-- Parse of `cexServer.targetURL`. -/
def cexTarget : URL := ⟨"http", "backend", "/", "", ""⟩

/-- A GET request whose content type is not `application/json`. -/
def cexBadCTGetReq : Request :=
  ⟨"GET", ⟨"", "", "/dir", "", ""⟩, "backend", "/dir",
   [("Content-Type", ["text/plain"])], some "\x7b\x7d"⟩

/-- Counterexample to C5 as stated: a request with a non-JSON content
type whose response status is 405, not 415 — the method check runs before
the content-type check, so the status is not independent of the method. -/
theorem contentType_415_regardless_of_method_cex :
    headerGet cexBadCTGetReq.header "Content-Type" ≠ "application/json" ∧
    (ServeHTTP cexServer cexTarget RequestCopy.zero cexBadCTGetReq).1 =
      Outcome.error 405
        "`GET` method not allowed, this proxy server only supports `POST, PUT, PATCH` requests" ∧
    (ServeHTTP cexServer cexTarget RequestCopy.zero cexBadCTGetReq).1 ≠
      Outcome.error 415 "Content-Type header must be `application/json`" := by
  refine ⟨by decide, by decide, by decide⟩

/-- C5 amended: for every request that passes admission control (admission
mode off, or method among POST, PUT, PATCH), a content-type value not
byte-exactly `application/json` yields status 415, regardless of the
body, and the stored snapshot is untouched. -/
theorem contentType_415_after_admission (s : ProxyServer) (target : URL) (st : RequestCopy)
    (r : Request)
    (hadm : s.bodyMethodsOnly = false ∨ r.method ∈ ["POST", "PUT", "PATCH"])
    (hct : ¬ headerGet r.header "Content-Type" = "application/json") :
    ServeHTTP s target st r =
      (Outcome.error 415 "Content-Type header must be `application/json`", st) := by
  have h1 : ¬ (s.bodyMethodsOnly = true ∧ ¬ r.method ∈ ["POST", "PUT", "PATCH"]) := by
    rcases hadm with h | h
    · simp [h]
    · simp [h]
  unfold ServeHTTP
  rw [if_neg h1, if_pos hct]

/-- Witness: C5 amended applied to a POST request carrying `text/plain`. -/
theorem contentType_415_after_admission_witness :
    ServeHTTP cexServer cexTarget RequestCopy.zero
        ⟨"POST", ⟨"", "", "/dir", "", ""⟩, "backend", "/dir",
         [("Content-Type", ["text/plain"])], some "\x7b\x7d"⟩ =
      (Outcome.error 415 "Content-Type header must be `application/json`", RequestCopy.zero) :=
  contentType_415_after_admission cexServer cexTarget RequestCopy.zero
    ⟨"POST", ⟨"", "", "/dir", "", ""⟩, "backend", "/dir",
     [("Content-Type", ["text/plain"])], some "\x7b\x7d"⟩
    (Or.inr (by decide)) (by decide)

/-- Target URL parsed from `http://h/a%2F`: `url.Parse` stores
`Path = "/a/"` with `RawPath = "/a%2F"`, since the canonical escape of
`/a/` is not the input. -/
def rawURLTarget : URL := ⟨"http", "h", "/a/", "/a%2F", ""⟩

/-- Inbound URL for path `/b` (no escaping needed, so `RawPath` empty). -/
def plainURLInbound : URL := ⟨"", "", "/b", "", ""⟩

/-- Counterexample to C3 as stated: with a target whose raw path is
`/a%2F`, the joined plain path takes the slash decision from the escaped
paths, producing `/a//b` — a doubled separator — where the rule applied
to the plain paths themselves would give `/a/b`. -/
theorem joinURLPath_slash_from_escaped_cex :
    (joinURLPath rawURLTarget plainURLInbound).1 = "/a//b" ∧
    singleJoiningSlash rawURLTarget.path plainURLInbound.path = "/a/b" ∧
    (joinURLPath rawURLTarget plainURLInbound).1 ≠
      singleJoiningSlash rawURLTarget.path plainURLInbound.path ∧
    stringsContains (joinURLPath rawURLTarget plainURLInbound).1 "//" = true := by
  refine ⟨by decide, by decide, by decide, by decide⟩

/-- The one-separating-slash join of two strings, with the slash decision
bits given explicitly (the specification's rule, abstracted over where
the decision is read from). -/
def joinWithSlashDecision (aslash bslash : Bool) (a b : String) : String :=
  if aslash ∧ bslash then a ++ stringDropFirst b
  else if ¬aslash ∧ ¬bslash then a ++ "/" ++ b
  else a ++ b

/-- C3 amended: the rewritten URL keeps the target's scheme and host and
merges queries exactly as claimed; the path join applies the
one-separating-slash rule to the plain paths, with the slash decision
taken from the plain paths themselves and an empty raw path, only when
neither URL carries a raw path — otherwise the decision for both the
plain and the escaped join is taken from the escaped paths (so the plain
path may receive zero or two separating slashes when a path disagrees
with its escaped form about a boundary slash). -/
theorem prepareRequest_join_characterization (target : URL) (r : Request) :
    ((prepareRequest target r).url.scheme = target.scheme ∧
     (prepareRequest target r).url.host = target.host)
    ∧ (target.rawPath = "" ∧ r.url.rawPath = "" →
        (prepareRequest target r).url.path = singleJoiningSlash target.path r.url.path ∧
        (prepareRequest target r).url.rawPath = "")
    ∧ (¬ (target.rawPath = "" ∧ r.url.rawPath = "") →
        (prepareRequest target r).url.path =
          joinWithSlashDecision (stringsHasSuffix target.escapedPath "/")
            (stringsHasPrefix r.url.escapedPath "/") target.path r.url.path ∧
        (prepareRequest target r).url.rawPath =
          joinWithSlashDecision (stringsHasSuffix target.escapedPath "/")
            (stringsHasPrefix r.url.escapedPath "/") target.escapedPath r.url.escapedPath)
    ∧ (prepareRequest target r).url.rawQuery =
        (if target.rawQuery = "" ∨ r.url.rawQuery = "" then
          target.rawQuery ++ r.url.rawQuery
        else
          target.rawQuery ++ "&" ++ r.url.rawQuery) := by
  refine ⟨⟨rfl, rfl⟩, ?_, ?_, rfl⟩
  · intro hempty
    simp only [prepareRequest, joinURLPath, if_pos hempty]
    refine ⟨?_, ?_⟩ <;> trivial
  · intro hnonempty
    simp only [prepareRequest, joinURLPath, if_neg hnonempty, joinWithSlashDecision]
    constructor
    · split
      · rfl
      · split
        · rfl
        · rfl
    · split
      · rfl
      · split
        · rfl
        · rfl

/-- Request wrapping `plainURLInbound`, for the C3 witness. -/
def rawJoinReq : Request :=
  ⟨"POST", plainURLInbound, "h", "/b", [("Content-Type", ["application/json"])], some ""⟩

/-- Witness: C3 amended applied to the raw-path target and the plain
inbound request. -/
theorem prepareRequest_join_characterization_witness :
    ¬ (rawURLTarget.rawPath = "" ∧ rawJoinReq.url.rawPath = "") ∧
    (prepareRequest rawURLTarget rawJoinReq).url.path =
      joinWithSlashDecision (stringsHasSuffix rawURLTarget.escapedPath "/")
        (stringsHasPrefix rawJoinReq.url.escapedPath "/") rawURLTarget.path
        rawJoinReq.url.path :=
  ⟨by decide,
    ((prepareRequest_join_characterization rawURLTarget rawJoinReq).2.2.1 (by decide)).1⟩

/-- C6 (code bug): the hand-built fallback error body lacks the comma
between its two members and is therefore not a parseable JSON object,
although inserting the comma (and the normal `json.Marshal` body) both
parse; evaluated at status 500 and the fallback's fixed message. -/
theorem writeError_fallback_not_parseable :
    isValidJsonObject (writeErrorFallbackBody 500) = false ∧
    isValidJsonObject (writeErrorFallbackBodyRepaired 500) = true ∧
    isValidJsonObject
      (writeErrorBody 500 "There was a response that could not be serialized into JSON") = true := by
  refine ⟨by decide, by decide, by decide⟩

/-- A non-zero snapshot: two identical POST requests produce it twice. -/
def raceSnapshot : RequestCopy := ⟨"POST", "http://t/", "/dir", headerCopy.zero, "x"⟩

/-- C9 (code bug): the unsynchronized snapshot slot is racy.  Under mutual
exclusion, every serialization of two handlers carrying identical
snapshots delays exactly one of them; the unsynchronized interleaving
read-A, read-B, write-A, write-B that the lock-free source admits delays
neither, an outcome no atomic execution produces. -/
theorem priorRequest_race_observable :
    duplicateCheckRacyRRWW RequestCopy.zero raceSnapshot raceSnapshot ≠
      duplicateCheckSerialAB RequestCopy.zero raceSnapshot raceSnapshot ∧
    duplicateCheckRacyRRWW RequestCopy.zero raceSnapshot raceSnapshot ≠
      duplicateCheckSerialBA RequestCopy.zero raceSnapshot raceSnapshot ∧
    (duplicateCheckSerialAB RequestCopy.zero raceSnapshot raceSnapshot).2.1 = true ∧
    (duplicateCheckSerialBA RequestCopy.zero raceSnapshot raceSnapshot).1 = true ∧
    (duplicateCheckRacyRRWW RequestCopy.zero raceSnapshot raceSnapshot).1 = false ∧
    (duplicateCheckRacyRRWW RequestCopy.zero raceSnapshot raceSnapshot).2.1 = false := by
  refine ⟨by decide, by decide, by decide, by decide, by decide, by decide⟩

end ProxyService
